import Mathlib

/-!
Shallow embedding of the avr-i2c crate (src/lib.rs, src/hardware_atmega328p.rs).

The driver talks to four memory-mapped registers by volatile reads and
writes.  We model each operation as a pure function of a hardware-response
oracle `env`: the oracle gives, per busy-wait of the call, the raw TWSR
status byte (and, for `read`, the TWDR data byte) that the hardware exposes
once the interrupt flag is set.  Each operation returns the sequence of
register accesses it performs (an event trace) together with its result.
`Option` wraps the result because the source calls
`TWSRStatus::from_byte(..).unwrap()`: an unrecognised status byte aborts
execution, which we model as `none`.
-/

namespace AvrI2c

/-- src/lib.rs: `enum Direction { Read, Write }`. -/
inductive Direction where
  | Read
  | Write
  deriving DecidableEq, Repr

/-- src/hardware_atmega328p.rs: `enum TWSRStatus` with its 13 variants. -/
inductive TWSRStatus where
  | StartTransmitted
  | RepeatedStartTransmitted
  | WriteHeaderTransmittedAckReceived
  | WriteHeaderTransmittedNackReceived
  | ReadHeaderTransmittedAckReceived
  | ReadHeaderTransmittedNackReceived
  | DataTransmittedAckReceived
  | DataTransmittedNackReceived
  | DataReceivedAckTransmitted
  | DataReceivedNackTransmitted
  | ArbitrationLost
  | NoInformation
  | BusError
  deriving DecidableEq, Repr

/-- `TWSRStatus::from_byte`: translate a raw TWSR value (a byte, modelled as
a natural number) to a status variant, `none` for unrecognised values. -/
def TWSRStatus.from_byte (value : Nat) : Option TWSRStatus :=
  match value with
  | 0x00 => some TWSRStatus.BusError
  | 0x08 => some TWSRStatus.StartTransmitted
  | 0x10 => some TWSRStatus.RepeatedStartTransmitted
  | 0x18 => some TWSRStatus.WriteHeaderTransmittedAckReceived
  | 0x20 => some TWSRStatus.WriteHeaderTransmittedNackReceived
  | 0x28 => some TWSRStatus.DataTransmittedAckReceived
  | 0x30 => some TWSRStatus.DataTransmittedNackReceived
  | 0x38 => some TWSRStatus.ArbitrationLost
  | 0x40 => some TWSRStatus.ReadHeaderTransmittedAckReceived
  | 0x48 => some TWSRStatus.ReadHeaderTransmittedNackReceived
  | 0x50 => some TWSRStatus.DataReceivedAckTransmitted
  | 0x58 => some TWSRStatus.DataReceivedNackTransmitted
  | 0xF8 => some TWSRStatus.NoInformation
  | _ => none

/-- Control-register mask TWINT (interrupt flag). -/
def TWINT : Nat := 0x80

/-- Control-register mask TWEA (enable acknowledge). -/
def TWEA : Nat := 0x40

/-- Control-register mask TWSTA (start condition). -/
def TWSTA : Nat := 0x20

/-- Control-register mask TWSTO (stop condition). -/
def TWSTO : Nat := 0x10

/-- Control-register mask TWEN (enable). -/
def TWEN : Nat := 0x04

/-- One observable hardware-register access performed by the driver.
`waitTWINT` stands for the busy-wait loop `await_hardware()`. -/
inductive Event where
  | writeTWBR (v : Nat)
  | writeTWSR (v : Nat)
  | writeTWDR (v : Nat)
  | writeTWCR (v : Nat)
  | waitTWINT
  | readTWSR (v : Nat)
  | readTWDR (v : Nat)
  deriving DecidableEq, Repr

/-- `struct TWI { twbr: u8 }`. -/
structure TWI where
  twbr : Nat
  deriving DecidableEq, Repr

/-- `TWI::new(freq_hz)`: `twbr = (16_000_000 / (2 * freq_hz) - 8) as u8`.
Division is the truncating u32 division (Nat division); the `as u8` cast
keeps the low byte.  (Rust's u32 subtraction is only defined without
underflow; the claims about `new` carry that as a precondition.) -/
def TWI.new (freq_hz : Nat) : TWI :=
  ⟨(16000000 / (2 * freq_hz) - 8) % 256⟩

/-- `TWI::init`: reset TWSR, program the bit-rate divisor, enable TWI. -/
def TWI.init (t : TWI) : List Event :=
  [Event.writeTWSR 0x00, Event.writeTWBR t.twbr, Event.writeTWCR TWEN]

/-- `TWI::start_condition`.  `twsr_val` is the raw TWSR byte the hardware
exposes after the busy-wait. -/
def start_condition (twsr_val : Nat) :
    List Event × Option (Except TWSRStatus Unit) :=
  ([Event.writeTWCR (TWINT ||| TWSTA ||| TWEN), Event.waitTWINT,
    Event.readTWSR twsr_val],
   match TWSRStatus.from_byte twsr_val with
   | none => none
   | some TWSRStatus.StartTransmitted => some (Except.ok ())
   | some x => some (Except.error x))

/-- `TWI::stop_condition`.  `twsr_val` is the TWSR value after the wait;
the source never reads it in this operation. -/
def stop_condition (_twsr_val : Nat) : List Event × Except Unit Unit :=
  ([Event.writeTWCR (TWINT ||| TWSTO ||| TWEN), Event.waitTWINT],
   Except.ok ())

/-- `TWI::send_header`.  The payload is `(address << 1) | rw_bit` computed
in u8 arithmetic (hence the reduction mod 256).  The source match carries
`if direction == ...` guards; matching on the pair renders them. -/
def send_header (address : Nat) (direction : Direction) (twsr_val : Nat) :
    List Event × Option (Except TWSRStatus Unit) :=
  let payload : Nat :=
    ((address <<< 1) % 256) |||
      (match direction with
       | Direction.Read => 1
       | Direction.Write => 0)
  ([Event.writeTWDR payload, Event.writeTWCR (TWINT ||| TWEN),
    Event.waitTWINT, Event.readTWSR twsr_val],
   match TWSRStatus.from_byte twsr_val with
   | none => none
   | some s =>
     match s, direction with
     | TWSRStatus.ReadHeaderTransmittedAckReceived, Direction.Read =>
       some (Except.ok ())
     | TWSRStatus.WriteHeaderTransmittedAckReceived, Direction.Write =>
       some (Except.ok ())
     | x, _ => some (Except.error x))

/-- `TWI::send`.  `env i` is the raw TWSR byte observed after the wait of
the i-th loop iteration of this call. -/
def send : (Nat → Nat) → List Nat →
    List Event × Option (Except TWSRStatus Unit)
  | _, [] => ([], some (Except.ok ()))
  | env, byt :: rest =>
    let evs := [Event.writeTWDR byt, Event.writeTWCR (TWINT ||| TWEN),
                Event.waitTWINT, Event.readTWSR (env 0)]
    match TWSRStatus.from_byte (env 0) with
    | none => (evs, none)
    | some TWSRStatus.DataTransmittedAckReceived =>
      let r := send (fun i => env (i + 1)) rest
      (evs ++ r.1, r.2)
    | some x => (evs, some (Except.error x))

/-- `TWI::read`.  `env i` gives the (TWSR, TWDR) pair the hardware exposes
at the i-th loop iteration of this call.  The buffer is the list of slot
values; the middle component of the result is the buffer's final contents.
The source's guarded match arms
`DataReceivedAckTransmitted if end_with_nack` and
`DataReceivedNackTransmitted if !end_with_nack` are rendered as the
disjunctive condition below; every other decoded status returns the error. -/
def read : (Nat → Nat × Nat) → Bool → List Nat →
    List Event × List Nat × Option (Except TWSRStatus Unit)
  | _, _, [] => ([], [], some (Except.ok ()))
  | env, end_with_nack, slot :: rest =>
    let ctrl := TWINT ||| TWEN ||| (if end_with_nack then TWEA else 0)
    let st := (env 0).1
    let evs := [Event.writeTWCR ctrl, Event.waitTWINT, Event.readTWSR st]
    match TWSRStatus.from_byte st with
    | none => (evs, slot :: rest, none)
    | some s =>
      if (s = TWSRStatus.DataReceivedAckTransmitted ∧ end_with_nack = true) ∨
         (s = TWSRStatus.DataReceivedNackTransmitted ∧ end_with_nack = false)
      then
        let dat := (env 0).2
        let r := read (fun i => env (i + 1)) end_with_nack rest
        (evs ++ [Event.readTWDR dat] ++ r.1, dat :: r.2.1, r.2.2)
      else
        (evs, slot :: rest, some (Except.error s))

/-- The data-register writes occurring in a trace, in order. -/
def twdrWrites : List Event → List Nat
  | [] => []
  | Event.writeTWDR v :: rest => v :: twdrWrites rest
  | _ :: rest => twdrWrites rest

/-- The control-register writes occurring in a trace, in order. -/
def twcrWrites : List Event → List Nat
  | [] => []
  | Event.writeTWCR v :: rest => v :: twcrWrites rest
  | _ :: rest => twcrWrites rest

/-- The status a `read` slot must decode to, as a function of the
`end_with_nack` flag of the call. -/
def requiredReadStatus (end_with_nack : Bool) : TWSRStatus :=
  if end_with_nack then TWSRStatus.DataReceivedAckTransmitted
  else TWSRStatus.DataReceivedNackTransmitted

/-- C4: `TWSRStatus.from_byte` is a pure total mapping on bytes: it returns
the named variant for exactly the 13 documented raw values and `none` for
each of the remaining 243 byte values. -/
theorem from_byte_total_table :
    TWSRStatus.from_byte 0x00 = some TWSRStatus.BusError ∧
    TWSRStatus.from_byte 0x08 = some TWSRStatus.StartTransmitted ∧
    TWSRStatus.from_byte 0x10 = some TWSRStatus.RepeatedStartTransmitted ∧
    TWSRStatus.from_byte 0x18 =
      some TWSRStatus.WriteHeaderTransmittedAckReceived ∧
    TWSRStatus.from_byte 0x20 =
      some TWSRStatus.WriteHeaderTransmittedNackReceived ∧
    TWSRStatus.from_byte 0x28 = some TWSRStatus.DataTransmittedAckReceived ∧
    TWSRStatus.from_byte 0x30 = some TWSRStatus.DataTransmittedNackReceived ∧
    TWSRStatus.from_byte 0x38 = some TWSRStatus.ArbitrationLost ∧
    TWSRStatus.from_byte 0x40 =
      some TWSRStatus.ReadHeaderTransmittedAckReceived ∧
    TWSRStatus.from_byte 0x48 =
      some TWSRStatus.ReadHeaderTransmittedNackReceived ∧
    TWSRStatus.from_byte 0x50 = some TWSRStatus.DataReceivedAckTransmitted ∧
    TWSRStatus.from_byte 0x58 = some TWSRStatus.DataReceivedNackTransmitted ∧
    TWSRStatus.from_byte 0xF8 = some TWSRStatus.NoInformation ∧
    (∀ v, v < 256 →
      v ∉ ([0x00, 0x08, 0x10, 0x18, 0x20, 0x28, 0x30, 0x38, 0x40, 0x48,
            0x50, 0x58, 0xF8] : List Nat) →
      TWSRStatus.from_byte v = none) ∧
    (List.range 256).countP (fun v => (TWSRStatus.from_byte v).isNone) =
      243 := by
  set_option maxRecDepth 4096 in decide

/-- Witness for C4: the undocumented byte 0x01 decodes to `none`. -/
theorem from_byte_total_table_witness : TWSRStatus.from_byte 0x01 = none :=
  from_byte_total_table.2.2.2.2.2.2.2.2.2.2.2.2.2.1 0x01 (by decide)
    (by decide)

/-- C3: `start_condition` asserts TWINT, TWSTA and TWEN, waits, and returns
success iff the decoded status is `StartTransmitted`; every other decoded
variant is returned as the error value. -/
theorem start_condition_spec (raw : Nat) (s : TWSRStatus)
    (h : TWSRStatus.from_byte raw = some s) :
    (start_condition raw).1 =
      [Event.writeTWCR (TWINT ||| TWSTA ||| TWEN), Event.waitTWINT,
       Event.readTWSR raw] ∧
    ((start_condition raw).2 = some (Except.ok ()) ↔
      s = TWSRStatus.StartTransmitted) ∧
    (s ≠ TWSRStatus.StartTransmitted →
      (start_condition raw).2 = some (Except.error s)) := by
  refine ⟨rfl, ?_, ?_⟩ <;> cases s <;> simp [start_condition, h]

/-- Witness for C3: status 0x10 (RepeatedStartTransmitted) is returned as
the error, not silently accepted. -/
theorem start_condition_spec_witness :
    (start_condition 0x10).2 =
      some (Except.error TWSRStatus.RepeatedStartTransmitted) :=
  (start_condition_spec 0x10 TWSRStatus.RepeatedStartTransmitted
    (by decide)).2.2 (by decide)

/-- C9: `stop_condition` asserts TWINT, TWSTO and TWEN, waits, and always
returns success, whatever the status register holds after the wait (the
status register is never read). -/
theorem stop_condition_spec (twsr_val : Nat) :
    stop_condition twsr_val =
      ([Event.writeTWCR (TWINT ||| TWSTO ||| TWEN), Event.waitTWINT],
       Except.ok ()) :=
  rfl

/-- C10: `send` on an empty sequence and `read` on an empty buffer (for
either flag value) return success immediately, with an empty event trace:
no register read or write and no wait on the completion flag. -/
theorem empty_send_read_spec (env : Nat → Nat) (env2 : Nat → Nat × Nat)
    (end_with_nack : Bool) :
    send env [] = ([], some (Except.ok ())) ∧
    read env2 end_with_nack [] = ([], [], some (Except.ok ())) :=
  ⟨rfl, rfl⟩

/-- C7: for every requested frequency f with 16,000,000/(2f) − 8 in
[0,255], the constructed divisor byte equals floor(16,000,000/(2f)) − 8. -/
theorem new_twbr_spec (freq_hz : Nat) (h0 : 0 < freq_hz)
    (h1 : 8 ≤ 16000000 / (2 * freq_hz))
    (h2 : 16000000 / (2 * freq_hz) - 8 ≤ 255) :
    (TWI.new freq_hz).twbr = 16000000 / (2 * freq_hz) - 8 := by
  show (16000000 / (2 * freq_hz) - 8) % 256 = 16000000 / (2 * freq_hz) - 8
  exact Nat.mod_eq_of_lt (by omega)

/-- Witness for C7: a 100 kHz request yields divisor 72. -/
theorem new_twbr_spec_witness : (TWI.new 100000).twbr = 72 :=
  (new_twbr_spec 100000 (by norm_num) (by norm_num) (by norm_num)).trans
    (by norm_num)

/-- C5: `send_header` succeeds iff (direction Read and status
ReadHeaderTransmittedAckReceived) or (direction Write and status
WriteHeaderTransmittedAckReceived); every other decoded status, including
both nack variants and the acked status of the other direction, is
returned as the error value. -/
theorem send_header_result_spec (address : Nat) (d : Direction) (raw : Nat)
    (s : TWSRStatus) (h : TWSRStatus.from_byte raw = some s) :
    ((send_header address d raw).2 = some (Except.ok ()) ↔
      (d = Direction.Read ∧
        s = TWSRStatus.ReadHeaderTransmittedAckReceived) ∨
      (d = Direction.Write ∧
        s = TWSRStatus.WriteHeaderTransmittedAckReceived)) ∧
    (¬((d = Direction.Read ∧
        s = TWSRStatus.ReadHeaderTransmittedAckReceived) ∨
       (d = Direction.Write ∧
        s = TWSRStatus.WriteHeaderTransmittedAckReceived)) →
      (send_header address d raw).2 = some (Except.error s)) := by
  cases d <;> cases s <;> simp [send_header, h]

/-- Witness for C5: a Read header answered with the Write-acked status is
an error, while a Write header answered with the Write-acked status
succeeds. -/
theorem send_header_result_spec_witness :
    (send_header 0x50 Direction.Write 0x18).2 = some (Except.ok ()) ∧
    (send_header 0x50 Direction.Read 0x18).2 =
      some (Except.error TWSRStatus.WriteHeaderTransmittedAckReceived) :=
  ⟨(send_header_result_spec 0x50 Direction.Write 0x18
      TWSRStatus.WriteHeaderTransmittedAckReceived (by decide)).1.mpr
      (Or.inr ⟨rfl, rfl⟩),
   (send_header_result_spec 0x50 Direction.Read 0x18
      TWSRStatus.WriteHeaderTransmittedAckReceived (by decide)).2
      (by decide)⟩

/-- C6: for every 7-bit address and direction, `send_header` first writes
the payload (address << 1) | (1 if Read else 0) to the data register, then
asserts TWINT and TWEN. -/
theorem send_header_payload_spec (address : Nat) (d : Direction) (raw : Nat)
    (h : address < 128) :
    (send_header address d raw).1 =
      [Event.writeTWDR
         ((address <<< 1) ||| (if d = Direction.Read then 1 else 0)),
       Event.writeTWCR (TWINT ||| TWEN), Event.waitTWINT,
       Event.readTWSR raw] := by
  have hsh : address <<< 1 = address * 2 := by
    rw [Nat.shiftLeft_eq]
  have hlt : address <<< 1 < 256 := by omega
  cases d <;> simp [send_header, Nat.mod_eq_of_lt hlt]

/-- Witness for C6: address 0x50 gives payload 0xA0 with Write and 0xA1
with Read. -/
theorem send_header_payload_spec_witness :
    (send_header 0x50 Direction.Write 0x18).1 =
      [Event.writeTWDR 0xA0, Event.writeTWCR 0x84, Event.waitTWINT,
       Event.readTWSR 0x18] ∧
    (send_header 0x50 Direction.Read 0x40).1 =
      [Event.writeTWDR 0xA1, Event.writeTWCR 0x84, Event.waitTWINT,
       Event.readTWSR 0x40] :=
  ⟨(send_header_payload_spec 0x50 Direction.Write 0x18 (by decide)).trans
     (by decide),
   (send_header_payload_spec 0x50 Direction.Read 0x40 (by decide)).trans
     (by decide)⟩

/-- C8: in every status-decoding operation, a raw status byte outside the
13 documented values makes the call abort (`none`, the model of the
source's unwrap panicking) instead of returning any success or error. -/
theorem unwrap_abort_spec (raw : Nat) (h : TWSRStatus.from_byte raw = none)
    (address : Nat) (d : Direction) (byt : Nat) (data : List Nat)
    (env : Nat → Nat) (henv : env 0 = raw)
    (env2 : Nat → Nat × Nat) (henv2 : (env2 0).1 = raw)
    (end_with_nack : Bool) (slot : Nat) (slots : List Nat) :
    (start_condition raw).2 = none ∧
    (send_header address d raw).2 = none ∧
    (send env (byt :: data)).2 = none ∧
    (read env2 end_with_nack (slot :: slots)).2.2 = none := by
  refine ⟨?_, ?_, ?_, ?_⟩ <;>
    simp [start_condition, send_header, send, read, henv, henv2, h]

/-- Witness for C8: the undocumented status byte 0x01 aborts all four
operations. -/
theorem unwrap_abort_spec_witness :
    (start_condition 0x01).2 = none ∧
    (send_header 0x50 Direction.Write 0x01).2 = none ∧
    (send (fun _ => 0x01) [5]).2 = none ∧
    (read (fun _ => (0x01, 0)) true [7]).2.2 = none :=
  unwrap_abort_spec 0x01 (by decide) 0x50 Direction.Write 5 []
    (fun _ => 0x01) rfl (fun _ => (0x01, 0)) rfl true 7 []

theorem twdrWrites_append (l₁ l₂ : List Event) :
    twdrWrites (l₁ ++ l₂) = twdrWrites l₁ ++ twdrWrites l₂ := by
  induction l₁ with
  | nil => rfl
  | cons e rest ih => cases e <;> simp [twdrWrites, ih]

theorem twcrWrites_append (l₁ l₂ : List Event) :
    twcrWrites (l₁ ++ l₂) = twcrWrites l₁ ++ twcrWrites l₂ := by
  induction l₁ with
  | nil => rfl
  | cons e rest ih => cases e <;> simp [twcrWrites, ih]

theorem send_twcr_all (data : List Nat) :
    ∀ (env : Nat → Nat) (v : Nat),
      v ∈ twcrWrites (send env data).1 → v = TWINT ||| TWEN := by
  induction data with
  | nil =>
    intro env v hv
    simp [send, twcrWrites] at hv
  | cons b rest ih =>
    intro env v hv
    cases hst : TWSRStatus.from_byte (env 0) with
    | none =>
      simp [send, hst, twcrWrites] at hv
      exact hv
    | some s =>
      cases s <;> simp [send, hst, twcrWrites, twcrWrites_append] at hv <;>
        first
          | exact hv
          | exact hv.elim (fun h => h) (fun h => ih _ v h)

theorem send_all_acked (data : List Nat) :
    ∀ env : Nat → Nat,
    (∀ i, i < data.length →
      TWSRStatus.from_byte (env i) =
        some TWSRStatus.DataTransmittedAckReceived) →
    (send env data).2 = some (Except.ok ()) ∧
    twdrWrites (send env data).1 = data := by
  induction data with
  | nil => intro env _; exact ⟨rfl, rfl⟩
  | cons b rest ih =>
    intro env h
    have h0 := h 0 (by simp)
    have hrec := ih (fun i => env (i + 1))
      (fun i hi => h (i + 1) (by simpa using Nat.succ_lt_succ hi))
    simp [send, h0, twdrWrites, twdrWrites_append, hrec.1, hrec.2]

theorem send_first_bad (data : List Nat) :
    ∀ (env : Nat → Nat) (j : Nat) (s : TWSRStatus), j < data.length →
    (∀ i, i < j →
      TWSRStatus.from_byte (env i) =
        some TWSRStatus.DataTransmittedAckReceived) →
    TWSRStatus.from_byte (env j) = some s →
    s ≠ TWSRStatus.DataTransmittedAckReceived →
    (send env data).2 = some (Except.error s) ∧
    twdrWrites (send env data).1 = List.take (j + 1) data := by
  induction data with
  | nil => intro env j s hj _ _ _; exact absurd hj (by simp)
  | cons b rest ih =>
    intro env j s hj hgood hbad hs
    match j with
    | 0 =>
      refine ⟨?_, ?_⟩ <;>
        cases s <;>
          first
            | exact absurd rfl hs
            | simp [send, hbad, twdrWrites]
    | j' + 1 =>
      have h0 := hgood 0 (Nat.succ_pos _)
      have hrec := ih (fun i => env (i + 1)) j' s
        (by simpa using Nat.lt_of_succ_lt_succ hj)
        (fun i hi => hgood (i + 1) (Nat.succ_lt_succ hi)) hbad hs
      simp [send, h0, twdrWrites, twdrWrites_append, hrec.1, hrec.2]

theorem read_twcr_all (data : List Nat) :
    ∀ (env : Nat → Nat × Nat) (end_with_nack : Bool) (v : Nat),
      v ∈ twcrWrites (read env end_with_nack data).1 →
      v = TWINT ||| TWEN ||| (if end_with_nack then TWEA else 0) := by
  induction data with
  | nil =>
    intro env ewn v hv
    simp [read, twcrWrites] at hv
  | cons slot rest ih =>
    intro env ewn v hv
    cases hst : TWSRStatus.from_byte (env 0).1 with
    | none =>
      simp [read, hst, twcrWrites] at hv
      exact hv
    | some s =>
      by_cases hc :
        (s = TWSRStatus.DataReceivedAckTransmitted ∧ ewn = true) ∨
        (s = TWSRStatus.DataReceivedNackTransmitted ∧ ewn = false)
      · simp [read, hst, hc, twcrWrites, twcrWrites_append] at hv
        exact hv.elim (fun h => h) (fun h => ih _ ewn v h)
      · simp [read, hst, hc, twcrWrites] at hv
        exact hv

theorem read_all_good (data : List Nat) :
    ∀ (env : Nat → Nat × Nat) (end_with_nack : Bool),
    (∀ i, i < data.length →
      TWSRStatus.from_byte (env i).1 =
        some (requiredReadStatus end_with_nack)) →
    (read env end_with_nack data).2.2 = some (Except.ok ()) ∧
    (read env end_with_nack data).2.1 =
      (List.range data.length).map (fun i => (env i).2) := by
  induction data with
  | nil => intro env ewn _; exact ⟨rfl, rfl⟩
  | cons slot rest ih =>
    intro env ewn h
    have h0 := h 0 (by simp)
    have hrec := ih (fun i => env (i + 1)) ewn
      (fun i hi => h (i + 1) (by simpa using Nat.succ_lt_succ hi))
    cases ewn <;>
      simp [requiredReadStatus] at h0 <;>
      simp [read, h0, hrec.1, hrec.2, List.range_succ_eq_map,
        List.map_map, Function.comp, Nat.succ_eq_add_one]

theorem read_first_bad (data : List Nat) :
    ∀ (env : Nat → Nat × Nat) (end_with_nack : Bool) (j : Nat)
      (s : TWSRStatus), j < data.length →
    (∀ i, i < j →
      TWSRStatus.from_byte (env i).1 =
        some (requiredReadStatus end_with_nack)) →
    TWSRStatus.from_byte (env j).1 = some s →
    s ≠ requiredReadStatus end_with_nack →
    (read env end_with_nack data).2.2 = some (Except.error s) ∧
    (read env end_with_nack data).2.1 =
      (List.range j).map (fun i => (env i).2) ++ List.drop j data := by
  induction data with
  | nil => intro env ewn j s hj _ _ _; exact absurd hj (by simp)
  | cons slot rest ih =>
    intro env ewn j s hj hgood hbad hs
    match j with
    | 0 =>
      have hc :
          ¬((s = TWSRStatus.DataReceivedAckTransmitted ∧ ewn = true) ∨
            (s = TWSRStatus.DataReceivedNackTransmitted ∧ ewn = false)) := by
        cases ewn <;> simp [requiredReadStatus] at hs <;> simp [hs]
      simp [read, hbad, hc]
    | j' + 1 =>
      have h0 := hgood 0 (Nat.succ_pos _)
      have hrec := ih (fun i => env (i + 1)) ewn j' s
        (by simpa using Nat.lt_of_succ_lt_succ hj)
        (fun i hi => hgood (i + 1) (Nat.succ_lt_succ hi)) hbad hs
      cases ewn <;>
        simp [requiredReadStatus] at h0 <;>
        simp [read, h0, hrec.1, hrec.2, List.range_succ_eq_map,
          List.map_map, Function.comp, Nat.succ_eq_add_one]

/-- C2: `send` processes the bytes in order, writing each byte to the data
register and asserting TWINT and TWEN; if every byte decodes to
DataTransmittedAckReceived the call succeeds with all bytes written; on
the first byte whose decoded status is anything else (index j), the call
returns that status as the error and exactly the first j+1 bytes were
ever written to the data register — later bytes are never transmitted. -/
theorem send_spec (env : Nat → Nat) (data : List Nat) (j : Nat)
    (s : TWSRStatus)
    (hgood : ∀ i, i < j →
      TWSRStatus.from_byte (env i) =
        some TWSRStatus.DataTransmittedAckReceived) :
    (∀ v ∈ twcrWrites (send env data).1, v = TWINT ||| TWEN) ∧
    (j = data.length →
      (send env data).2 = some (Except.ok ()) ∧
      twdrWrites (send env data).1 = data) ∧
    (j < data.length → TWSRStatus.from_byte (env j) = some s →
      s ≠ TWSRStatus.DataTransmittedAckReceived →
      (send env data).2 = some (Except.error s) ∧
      twdrWrites (send env data).1 = List.take (j + 1) data) := by
  refine ⟨fun v hv => send_twcr_all data env v hv, fun hj => ?_,
    fun hj hb hs => send_first_bad data env j s hj hgood hb hs⟩
  exact send_all_acked data env (fun i hi => hgood i (by omega))

/-- Witness for C2: sending [1, 2, 3] where the second byte's status
decodes to BusError confirms byte 1, returns BusError, and never writes
byte 3 to the data register. -/
theorem send_spec_witness :
    (send (fun i => if i = 0 then 0x28 else 0x00) [1, 2, 3]).2 =
      some (Except.error TWSRStatus.BusError) ∧
    twdrWrites
      (send (fun i => if i = 0 then 0x28 else 0x00) [1, 2, 3]).1 =
      [1, 2] := by
  have h := (send_spec (fun i => if i = 0 then 0x28 else 0x00) [1, 2, 3] 1
    TWSRStatus.BusError (by decide)).2.2 (by decide) (by decide) (by decide)
  exact ⟨h.1, h.2.trans (by decide)⟩

/-- C1: `read` processes the buffer slots in order; every control-register
write of the call asserts TWINT and TWEN plus TWEA iff `end_with_nack`
(the flag is evaluated identically for every byte of the call); a slot
succeeds iff the decoded status is the required one for the flag
(DataReceivedAckTransmitted when true, DataReceivedNackTransmitted when
false), in which case the data register's value is copied into the slot;
on the first slot (index j) with any other decoded status the call returns
that status as the error and every later slot keeps its prior value. -/
theorem read_spec (env : Nat → Nat × Nat) (end_with_nack : Bool)
    (buffer : List Nat) (j : Nat) (s : TWSRStatus)
    (hgood : ∀ i, i < j →
      TWSRStatus.from_byte (env i).1 =
        some (requiredReadStatus end_with_nack)) :
    requiredReadStatus true = TWSRStatus.DataReceivedAckTransmitted ∧
    requiredReadStatus false = TWSRStatus.DataReceivedNackTransmitted ∧
    (∀ v ∈ twcrWrites (read env end_with_nack buffer).1,
      v = TWINT ||| TWEN ||| (if end_with_nack then TWEA else 0)) ∧
    (j = buffer.length →
      (read env end_with_nack buffer).2.2 = some (Except.ok ()) ∧
      (read env end_with_nack buffer).2.1 =
        (List.range buffer.length).map (fun i => (env i).2)) ∧
    (j < buffer.length → TWSRStatus.from_byte (env j).1 = some s →
      s ≠ requiredReadStatus end_with_nack →
      (read env end_with_nack buffer).2.2 = some (Except.error s) ∧
      (read env end_with_nack buffer).2.1 =
        (List.range j).map (fun i => (env i).2) ++
          List.drop j buffer) := by
  refine ⟨rfl, rfl, fun v hv => read_twcr_all buffer env end_with_nack v hv,
    fun hj => ?_,
    fun hj hb hs =>
      read_first_bad buffer env end_with_nack j s hj hgood hb hs⟩
  exact read_all_good buffer env end_with_nack (fun i hi => hgood i (by omega))

/-- Witness for C1: reading two slots with `end_with_nack = true` where
slot 0 decodes DataReceivedAckTransmitted (data 0xAB) and slot 1 decodes
DataReceivedNackTransmitted returns that status immediately; slot 0 holds
the received byte and slot 1 keeps its prior value 9. -/
theorem read_spec_witness :
    (read (fun i => if i = 0 then (0x50, 0xAB) else (0x58, 0xCD)) true
      [7, 9]).2.2 =
      some (Except.error TWSRStatus.DataReceivedNackTransmitted) ∧
    (read (fun i => if i = 0 then (0x50, 0xAB) else (0x58, 0xCD)) true
      [7, 9]).2.1 = [0xAB, 9] := by
  have h := (read_spec (fun i => if i = 0 then (0x50, 0xAB) else (0x58, 0xCD))
    true [7, 9] 1 TWSRStatus.DataReceivedNackTransmitted
    (by decide)).2.2.2.2 (by decide) (by decide) (by decide)
  exact ⟨h.1, h.2.trans (by decide)⟩

end AvrI2c
